import Mathlib

/-!
Verification of the IP geolocation resolution service of the device-collector
repository (`src/server.js`, the variant with the in-memory cache and the
three-provider fallback chain in `lookupIP`, lines 283-377).

The JavaScript code is shallowly embedded:
* JS runtime values appearing in the resolver are modeled by `JsVal`
  (JSON values plus `undefined` and `NaN`; JS doubles are modeled as exact
  rationals, IEEE-754 rounding is abstracted away).
* The outcome of one outbound `fetch` is an oracle value `FetchOutcome`
  supplied by the environment, one per provider position.
* Thrown JS exceptions are modeled by `Except Unit`; the per-provider
  `try { ... } catch { continue }` block becomes `attemptService`, and the
  resolver `lookupIP` consumes its result, exactly following the source's
  control flow.
* The `ipCache` JS `Map` is an association list `Cache`; `Date.now()` is a
  `Nat` parameter `now` (one instant per resolve call).
* `lookupIP` additionally returns the trace `called` of the providers it
  actually fetched from, in order, together with the IP argument passed to
  each provider's URL builder (`none` mirrors the JS `null` of auto-detect
  mode).  This trace is pure bookkeeping: it records which fetches happen.
-/

namespace DeviceCollector

/-- Model of the JS runtime values flowing through the resolver:
JSON values plus `undefined`, `NaN` and the infinities.  Numbers are exact
rationals (JS doubles abstracted). -/
inductive JsVal : Type
  | jsUndefined : JsVal
  | jsNull : JsVal
  | nan : JsVal
  | inf : Bool → JsVal
  | num : Rat → JsVal
  | str : String → JsVal
  | bool : Bool → JsVal
  | obj : List (String × JsVal) → JsVal

/-- First binding of a key in a JS object's field list. -/
def objLookup : List (String × JsVal) → String → Option JsVal
  | [], _ => none
  | (k, v) :: rest, key => if k = key then some v else objLookup rest key

/-- JS property read `data[key]`: throws a TypeError on a `null` or
`undefined` receiver, yields the stored value (or `undefined` for a missing
key) on objects, and `undefined` on other primitives. -/
def getField : JsVal → String → Except Unit JsVal
  | .jsUndefined, _ => .error ()
  | .jsNull, _ => .error ()
  | .obj fields, key => .ok ((objLookup fields key).getD .jsUndefined)
  | _, _ => .ok .jsUndefined

/-- JS property read on a receiver already known not to be `null` or
`undefined` (the read cannot throw): the stored value on objects,
`undefined` otherwise. -/
def readField : JsVal → String → JsVal
  | .obj fields, key => (objLookup fields key).getD .jsUndefined
  | _, _ => .jsUndefined

/-- JS truthiness of a value. -/
def truthy : JsVal → Bool
  | .jsUndefined => false
  | .jsNull => false
  | .nan => false
  | .inf _ => true
  | .num q => q != 0
  | .str s => s != ""
  | .bool b => b
  | .obj _ => true

/-- JS logical or: `a || b` yields `a` when truthy, else `b`. -/
def jsOr (a b : JsVal) : JsVal := if truthy a then a else b

/-- Split a character list at every occurrence of the separator; the JS
`split` semantics for a one-character separator (`"".split(sep)` is
`[""]`, adjacent separators yield empty pieces). -/
def splitChar (sep : Char) : List Char → List (List Char)
  | [] => [[]]
  | c :: rest =>
    if c = sep then [] :: splitChar sep rest
    else
      match splitChar sep rest with
      | [] => [[c]]
      | g :: gs => (c :: g) :: gs

/-- JS `receiver.split(sep)` for a one-character separator: defined for
string receivers, a thrown TypeError otherwise (calling `split` on a
non-string). -/
def jsSplit : JsVal → Char → Except Unit (List String)
  | .str s, sep => .ok ((splitChar sep s.data).map fun cs => String.mk cs)
  | _, _ => .error ()

/-- Whitespace skipped by JS `parseFloat` (the common ASCII forms). -/
def isJsSpace (c : Char) : Bool :=
  c = ' ' || c = '\t' || c = '\n' || c = '\r' || c = '\x0B' || c = '\x0C'

/-- Value of a list of decimal digit characters. -/
def digitsVal (ds : List Char) : Nat :=
  ds.foldl (fun a c => 10 * a + (c.toNat - 48)) 0

/-- Value of the digit run at the head of the list (0 when there is none,
matching JS dropping an incomplete exponent part). -/
def expDigitsVal (u : List Char) : Int :=
  (digitsVal (u.takeWhile Char.isDigit) : Int)

/-- Signed exponent digits after the `e` marker. -/
def expSigned : List Char → Int
  | '+' :: u => expDigitsVal u
  | '-' :: u => - expDigitsVal u
  | u => expDigitsVal u

/-- Exponent contributed by an `e`/`E` part at the given position, 0 when
absent or invalid (JS then ends the literal before the `e`). -/
def expPart : List Char → Int
  | 'e' :: t => expSigned t
  | 'E' :: t => expSigned t
  | _ => 0

/-- Scale a rational by a signed power of ten. -/
def applyExp (q : Rat) (e : Int) : Rat :=
  if 0 ≤ e then q * (10 : Rat) ^ e.toNat else q / (10 : Rat) ^ (-e).toNat

/-- JS `parseFloat` on a string: skip leading whitespace, read an optional
sign, then the longest decimal-literal (or `Infinity`) prefix; `NaN` when no
digits are found. -/
def parseFloatString (s : String) : JsVal :=
  let cs := s.data.dropWhile isJsSpace
  let neg := cs.head? = some '-'
  let cs1 := if cs.head? = some '-' || cs.head? = some '+' then cs.tail else cs
  if "Infinity".data.isPrefixOf cs1 then .inf neg
  else
    let ds := cs1.takeWhile Char.isDigit
    let rest := cs1.drop ds.length
    let fs := match rest with
      | '.' :: t => t.takeWhile Char.isDigit
      | _ => []
    let rest2 := match rest with
      | '.' :: t => t.drop fs.length
      | _ => rest
    if ds.isEmpty && fs.isEmpty then .nan
    else
      let e := expPart rest2
      let base : Rat := (digitsVal ds : Rat) + (digitsVal fs : Rat) / ((10 : Rat) ^ fs.length)
      let signed := if neg then -base else base
      .num (applyExp signed e)

/-- JS `parseFloat` applied to an indexing result `parts[i]`: an
out-of-range index gives `undefined`, which `parseFloat` coerces to the
string `"undefined"` before parsing. -/
def jsParseFloat (arg : Option String) : JsVal :=
  parseFloatString (arg.getD "undefined")

/-- JS `s.startsWith(p)`: prefix test on the character sequence. -/
def jsStartsWith (s p : String) : Bool :=
  p.data.isPrefixOf s.data

/-- Transform of the `ip-api.com` service (source lines 306-319): rename
that provider's native fields onto the shape shared with `ipapi.co`.
Evaluating the object literal throws iff the parsed body `data` is `null`
(or `undefined`) — every field is then a non-throwing property read;
`data.org || data.isp` is JS or. -/
def ipApiTransform (data : JsVal) : Except Unit JsVal :=
  match data with
  | .jsUndefined => .error ()
  | .jsNull => .error ()
  | _ => .ok (.obj
    [("ip", readField data "query"), ("city", readField data "city"),
     ("region", readField data "regionName"),
     ("region_code", readField data "region"),
     ("country", readField data "country"),
     ("country_name", readField data "country"),
     ("country_code", readField data "countryCode"),
     ("latitude", readField data "lat"), ("longitude", readField data "lon"),
     ("timezone", readField data "timezone"),
     ("org", jsOr (readField data "org") (readField data "isp")),
     ("postal", readField data "zip")])

/-- Transform of the `ipinfo.io` service (source lines 325-336).  A `null`
or `undefined` body throws on the first property read.  The combined `loc`
field is split at the comma and both halves are parsed with `parseFloat`
when `loc` is truthy (the source evaluates the same conditional and the
same split once for `latitude` and once for `longitude`; the two
evaluations agree, so they are computed together here); a falsy `loc`
yields `null` coordinates; calling `split` on a truthy non-string `loc`
throws. -/
def ipinfoTransform (data : JsVal) : Except Unit JsVal :=
  match data with
  | .jsUndefined => .error ()
  | .jsNull => .error ()
  | _ =>
    let loc := readField data "loc"
    let coords : Except Unit (JsVal × JsVal) :=
      if truthy loc then
        match jsSplit loc ',' with
        | .error e => .error e
        | .ok parts => .ok (jsParseFloat (parts.get? 0), jsParseFloat (parts.get? 1))
      else .ok (.jsNull, .jsNull)
    match coords with
    | .error e => .error e
    | .ok (latitude, longitude) => .ok (.obj
      [("ip", readField data "ip"), ("city", readField data "city"),
       ("region", readField data "region"),
       ("country", readField data "country"),
       ("country_name", readField data "country"),
       ("latitude", latitude), ("longitude", longitude),
       ("org", readField data "org"), ("postal", readField data "postal"),
       ("timezone", readField data "timezone")])

/-- One entry of the `services` array (source lines 296-338): name, URL
builder (its argument is `null`, modeled `none`, in auto-detect mode),
timeout in milliseconds, and the optional response transform. -/
structure Service where
  name : String
  getUrl : Option String → String
  timeout : Nat
  transform : Option (JsVal → Except Unit JsVal)

/-- First provider entry, `ipapi.co` (source lines 297-301): no transform,
the raw parsed body is used as-is.  The URL builders test JS truthiness of
their argument (`ip ? explicit : auto`). -/
def ipapiService : Service :=
  { name := "ipapi.co",
    getUrl := fun ipArg => match ipArg with
      | some i => if i = "" then "https://ipapi.co/json/"
                  else "https://ipapi.co/" ++ i ++ "/json/"
      | none => "https://ipapi.co/json/",
    timeout := 8000,
    transform := none }

/-- Second provider entry, `ip-api.com` (source lines 302-320). -/
def ipApiComService : Service :=
  { name := "ip-api.com",
    getUrl := fun ipArg => match ipArg with
      | some i => if i = "" then "http://ip-api.com/json/"
                  else "http://ip-api.com/json/" ++ i
      | none => "http://ip-api.com/json/",
    timeout := 8000,
    transform := some ipApiTransform }

/-- Third provider entry, `ipinfo.io` (source lines 321-337). -/
def ipinfoService : Service :=
  { name := "ipinfo.io",
    getUrl := fun ipArg => match ipArg with
      | some i => if i = "" then "https://ipinfo.io/json"
                  else "https://ipinfo.io/" ++ i ++ "/json"
      | none => "https://ipinfo.io/json",
    timeout := 8000,
    transform := some ipinfoTransform }

/-- The fixed, ordered provider list of `lookupIP` (source lines 296-338). -/
def services : List Service :=
  [ipapiService, ipApiComService, ipinfoService]

/-- Observable outcome of one `fetch` call against a provider: the promise
rejects (transport error or timeout), or a response arrives with a status
code and a body whose JSON parse (`res.json()`) either throws (`.error`)
or yields a value. -/
inductive FetchOutcome : Type
  | transportError : FetchOutcome
  | response : Nat → Except Unit JsVal → FetchOutcome

/-- The `ok` flag of a fetch response: status in the 2xx range. -/
def resOk (status : Nat) : Bool :=
  200 ≤ status && status < 300

/-- Body of the per-service `try` block of `lookupIP` (source lines
346-359), given the provider's fetch outcome: `.error` collects every path
that reaches the next provider (the thrown non-2xx error, the explicit
`continue` on HTTP 429, a rejected fetch, a body parse error, a throwing
transform), `.ok` is the location data of a successful attempt. -/
def attemptService (svc : Service) (outcome : FetchOutcome) : Except Unit JsVal :=
  match outcome with
  | .transportError => .error ()
  | .response status body =>
    if resOk status then
      match body with
      | .error _ => .error ()
      | .ok json =>
        match svc.transform with
        | some t => t json
        | none => .ok json
    else .error ()

/-- Did the attempt succeed? -/
def attemptOk (r : Except Unit JsVal) : Bool :=
  match r with
  | .ok _ => true
  | .error _ => false

/-- One cache slot: `{ data, timestamp }` as stored by `ipCache.set`. -/
structure CacheEntry where
  data : JsVal
  timestamp : Nat

/-- The `ipCache` JS `Map`, modeled as an association list. -/
abbrev Cache := List (String × CacheEntry)

/-- `ipCache.get key`. -/
def cacheGet : Cache → String → Option CacheEntry
  | [], _ => none
  | (k, v) :: rest, key => if k = key then some v else cacheGet rest key

/-- `ipCache.set key entry`: replace the existing binding in place, or
append a new one (JS `Map` insertion-order semantics). -/
def cacheSet : Cache → String → CacheEntry → Cache
  | [], key, entry => [(key, entry)]
  | (k, v) :: rest, key, entry =>
    if k = key then (key, entry) :: rest else (k, v) :: cacheSet rest key entry

/-- `ipCache.clear()` leaves the empty map. -/
def clearedCache : Cache := []

/-- `CACHE_DURATION = 24 * 60 * 60 * 1000` (24 hours in milliseconds). -/
def CACHE_DURATION : Nat := 24 * 60 * 60 * 1000

/-- `const cacheKey = ip || 'auto'`. -/
def cacheKeyOf (ip : String) : String :=
  if ip = "" then "auto" else ip

/-- Data of a fresh cache entry for the key, if any: mirrors
`if (cached && (Date.now() - cached.timestamp) < CACHE_DURATION)`.
`Nat` subtraction truncates at 0, which agrees with the JS signed
comparison: a negative age also counts as fresh. -/
def freshData (cache : Cache) (key : String) (now : Nat) : Option JsVal :=
  match cacheGet cache key with
  | some cached => if now - cached.timestamp < CACHE_DURATION then some cached.data else none
  | none => none

/-- `const useAuto = !ip || ip === '::1' || ip === '127.0.0.1' ||
ip.startsWith('192.168.') || ip.startsWith('10.') || ip.startsWith('172.')`
(source lines 341-342). -/
def useAuto (ip : String) : Bool :=
  ip = "" || ip = "::1" || ip = "127.0.0.1" ||
    jsStartsWith ip "192.168." || jsStartsWith ip "10." || jsStartsWith ip "172."

/-- Result of one resolve call: the returned location value, the cache
after the call, and the trace of providers fetched from (name and the IP
argument handed to the URL builder, `none` for auto-detect). -/
structure LookupResult where
  value : JsVal
  cache : Cache
  called : List (String × Option String)

/-- The `for (const service of services)` fallback loop of `lookupIP`
(source lines 345-373): try each provider once in order; the first
successful attempt is cached under `key` with the current time and
returned; when every attempt fails the empty record is returned and the
cache is untouched.  `i` is the position of the current provider, used to
index the fetch oracle `env`. -/
def tryServices (env : Nat → FetchOutcome) (now : Nat) (key : String)
    (arg : Option String) : Nat → List Service → Cache → LookupResult
  | _, [], cache => { value := .obj [], cache := cache, called := [] }
  | i, svc :: rest, cache =>
    match attemptService svc (env i) with
    | .ok locationData =>
      { value := locationData,
        cache := cacheSet cache key { data := locationData, timestamp := now },
        called := [(svc.name, arg)] }
    | .error _ =>
      let r := tryServices env now key arg (i + 1) rest cache
      { value := r.value, cache := r.cache, called := (svc.name, arg) :: r.called }

/-- The resolver `lookupIP(ip)` (source lines 287-377): key normalization,
cache lookup with TTL, then the ordered provider fallback with the IP
argument chosen by the auto-detect classification. -/
def lookupIP (env : Nat → FetchOutcome) (now : Nat) (cache : Cache) (ip : String) :
    LookupResult :=
  let key := cacheKeyOf ip
  match freshData cache key now with
  | some d => { value := d, cache := cache, called := [] }
  | none =>
    tryServices env now key (if useAuto ip then none else some ip) 0 services cache

/-- A field is observationally absent when reading it yields `undefined`
(a missing key, or a key explicitly bound to `undefined`: JSON
serialization drops both). -/
def fieldAbsent (v : JsVal) (key : String) : Bool :=
  match getField v key with
  | .ok .jsUndefined => true
  | _ => false

/-- Decimal digit test by character code (48-57). -/
def isDigitNat (c : Char) : Bool :=
  decide (48 ≤ c.toNat ∧ c.toNat ≤ 57)

/-- A canonical decimal octet: nonempty, all digits, no leading zero, and
value at most 255. -/
def octetOk (t : List Char) : Bool :=
  decide (t ≠ [] ∧ (∀ c ∈ t, isDigitNat c = true) ∧
    (t.head? = some '0' → t = ['0']) ∧ digitsVal t ≤ 255)

/-- Parse a well-formed dotted-quad IPv4 address into its four octet
values; `none` for any other string. -/
def parseIPv4 (s : String) : Option (Nat × Nat × Nat × Nat) :=
  match splitChar '.' s.data with
  | [t1, t2, t3, t4] =>
    if octetOk t1 && octetOk t2 && octetOk t3 && octetOk t4 then
      some (digitsVal t1, digitsVal t2, digitsVal t3, digitsVal t4)
    else none
  | _ => none

/-- The auto-detect classification exactly as claim C5 states it: the
input is empty, the IPv6 loopback literal, the IPv4 loopback literal, or
falls in one of the private ranges 10.0.0.0/8, 172.16.0.0/12,
192.168.0.0/16 — CIDR membership computed on the parsed decimal octets
(172.16.0.0/12 means first octet 172 and second octet 16..31). -/
def claimAutoClassification (ip : String) : Bool :=
  ip = "" || ip = "::1" || ip = "127.0.0.1" ||
    (match parseIPv4 ip with
     | some (a, b, _, _) =>
       a = 10 || (a = 172 && 16 ≤ b && b ≤ 31) || (a = 192 && b = 168)
     | none => false)

/-! Basic facts about the cache map. -/

theorem cacheGet_set_self (c : Cache) (k : String) (e : CacheEntry) :
    cacheGet (cacheSet c k e) k = some e := by
  induction c with
  | nil => simp [cacheSet, cacheGet]
  | cons kv rest ih =>
    obtain ⟨k', e'⟩ := kv
    by_cases h : k' = k <;> simp [cacheSet, cacheGet, h, ih]

theorem cacheGet_set_other (c : Cache) (k k' : String) (e : CacheEntry)
    (h : k' ≠ k) : cacheGet (cacheSet c k e) k' = cacheGet c k' := by
  have hne : k ≠ k' := fun hh => h hh.symm
  induction c with
  | nil => simp [cacheSet, cacheGet, hne]
  | cons kv rest ih =>
    obtain ⟨k₀, e₀⟩ := kv
    by_cases h₀ : k₀ = k
    · subst h₀
      simp [cacheSet, cacheGet, hne]
    · simp [cacheSet, cacheGet, h₀, ih]

/-- A stale (or absent) entry stays stale at any later instant. -/
theorem freshData_none_mono (cache : Cache) (key : String) (now now' : Nat)
    (h : freshData cache key now = none) (hle : now ≤ now') :
    freshData cache key now' = none := by
  cases hg : cacheGet cache key with
  | none => simp [freshData, hg]
  | some e =>
    have h' := h
    simp only [freshData, hg] at h' ⊢
    by_cases hlt : now - e.timestamp < CACHE_DURATION
    · simp [hlt] at h'
    · have hlt' : ¬ now' - e.timestamp < CACHE_DURATION := by omega
      simp [hlt']

/-! Shape analysis of failed and successful provider attempts. -/

theorem attemptOk_false_iff {r : Except Unit JsVal} :
    attemptOk r = false ↔ r = .error () := by
  cases r with
  | error e => cases e; simp [attemptOk]
  | ok v => simp [attemptOk]

theorem attemptOk_true_iff {r : Except Unit JsVal} :
    attemptOk r = true ↔ ∃ v, r = .ok v := by
  cases r with
  | error e => simp [attemptOk]
  | ok v => simp [attemptOk]

/-- Master characterization of the fallback loop: either some provider at
position `j` is the first to succeed — then its value is returned, cached
under the key with the current time, and exactly providers `0..j` were
fetched from — or every provider fails and the loop returns the empty
record leaving the cache untouched after fetching from all of them. -/
theorem tryServices_spec (env : Nat → FetchOutcome) (now : Nat) (key : String)
    (arg : Option String) :
    ∀ (svcs : List Service) (i : Nat) (cache : Cache),
      (∃ j svc v, svcs.get? j = some svc ∧ attemptService svc (env (i + j)) = .ok v ∧
        (∀ j' svc', j' < j → svcs.get? j' = some svc' →
          attemptOk (attemptService svc' (env (i + j'))) = false) ∧
        tryServices env now key arg i svcs cache =
          ⟨v, cacheSet cache key ⟨v, now⟩, (svcs.take (j + 1)).map fun s => (s.name, arg)⟩)
      ∨ ((∀ j svc, svcs.get? j = some svc →
            attemptOk (attemptService svc (env (i + j))) = false) ∧
         tryServices env now key arg i svcs cache =
           ⟨.obj [], cache, svcs.map fun s => (s.name, arg)⟩) := by
  intro svcs
  induction svcs with
  | nil =>
    intro i cache
    right
    constructor
    · intro j svc h
      simp [List.get?] at h
    · rfl
  | cons svc rest ih =>
    intro i cache
    cases hA : attemptService svc (env i) with
    | ok v =>
      left
      refine ⟨0, svc, v, rfl, by simpa using hA, ?_, ?_⟩
      · intro j' svc' hj' _
        omega
      · simp [tryServices, hA]
    | error e =>
      cases e
      rcases ih (i + 1) cache with ⟨j, svc', v, hget, hok, hearlier, heq⟩ | ⟨hfail, heq⟩
      · left
        refine ⟨j + 1, svc', v, by simpa using hget, ?_, ?_, ?_⟩
        · have hi : i + (j + 1) = (i + 1) + j := by omega
          rw [hi]; exact hok
        · intro j' svc'' hj' hget'
          cases j' with
          | zero =>
            simp [List.get?] at hget'
            subst hget'
            simpa [attemptOk_false_iff] using hA
          | succ j'' =>
            have hi : i + (j'' + 1) = (i + 1) + j'' := by omega
            rw [hi]
            exact hearlier j'' svc'' (by omega) (by simpa using hget')
        · simp [tryServices, hA, heq]
      · right
        constructor
        · intro j svc'' hget'
          cases j with
          | zero =>
            simp [List.get?] at hget'
            subst hget'
            simpa [attemptOk_false_iff] using hA
          | succ j' =>
            have hi : i + (j' + 1) = (i + 1) + j' := by omega
            rw [hi]
            exact hfail j' svc'' (by simpa using hget')
        · simp [tryServices, hA, heq]

/-! Unfolding the resolver at a cache hit and at a miss. -/

theorem lookupIP_hit (env : Nat → FetchOutcome) (now : Nat) (cache : Cache)
    (ip : String) (e : CacheEntry)
    (h : cacheGet cache (cacheKeyOf ip) = some e)
    (hf : now - e.timestamp < CACHE_DURATION) :
    lookupIP env now cache ip = ⟨e.data, cache, []⟩ := by
  simp [lookupIP, freshData, h, hf]

theorem lookupIP_miss (env : Nat → FetchOutcome) (now : Nat) (cache : Cache)
    (ip : String)
    (h : freshData cache (cacheKeyOf ip) now = none) :
    lookupIP env now cache ip =
      tryServices env now (cacheKeyOf ip)
        (if useAuto ip then none else some ip) 0 services cache := by
  simp [lookupIP, h]

/-- On a miss every trace of fetched providers is an in-order prefix of the
fixed provider-name list; on a hit it is empty. -/
theorem lookupIP_called_names (env : Nat → FetchOutcome) (now : Nat)
    (cache : Cache) (ip : String) :
    ((lookupIP env now cache ip).called.map Prod.fst) <+:
      services.map Service.name := by
  have hmf : ∀ (l : List Service),
      (l.map fun s => (s.name, if useAuto ip then none else some ip)).map Prod.fst =
        l.map Service.name := by
    intro l
    rw [List.map_map]
    rfl
  cases hF : freshData cache (cacheKeyOf ip) now with
  | some d =>
    have heq : lookupIP env now cache ip = ⟨d, cache, []⟩ := by
      simp [lookupIP, hF]
    rw [heq]
    exact List.nil_prefix
  | none =>
    rw [lookupIP_miss env now cache ip hF]
    rcases tryServices_spec env now (cacheKeyOf ip)
        (if useAuto ip then none else some ip) services 0 cache with
      ⟨j, svc, v, _, _, _, heq⟩ | ⟨_, heq⟩
    · rw [heq]
      dsimp only
      rw [hmf]
      exact (List.take_prefix (j + 1) services).map Service.name
    · rw [heq]
      dsimp only
      rw [hmf]

/-- When some provider attempt succeeds, a miss ends with the cache bound
under the call's key to the returned value, timestamped with the call's
instant. -/
theorem lookupIP_success_writes (env : Nat → FetchOutcome) (now : Nat)
    (cache : Cache) (ip : String)
    (hmiss : freshData cache (cacheKeyOf ip) now = none)
    (hex : ∃ j svc, services.get? j = some svc ∧
      attemptOk (attemptService svc (env j)) = true) :
    cacheGet (lookupIP env now cache ip).cache (cacheKeyOf ip) =
      some ⟨(lookupIP env now cache ip).value, now⟩ := by
  rw [lookupIP_miss env now cache ip hmiss]
  rcases tryServices_spec env now (cacheKeyOf ip)
      (if useAuto ip then none else some ip) services 0 cache with
    ⟨j, svc, v, _, _, _, heq⟩ | ⟨hfail, _⟩
  · rw [heq]
    exact cacheGet_set_self cache (cacheKeyOf ip) ⟨v, now⟩
  · exfalso
    obtain ⟨j, svc, hget, hok⟩ := hex
    have := hfail j svc (by simpa using hget)
    rw [Nat.zero_add] at this
    rw [this] at hok
    exact absurd hok (by simp)

/-- A miss always fetches from the first provider first. -/
theorem lookupIP_miss_calls_first (env : Nat → FetchOutcome) (now : Nat)
    (cache : Cache) (ip : String)
    (hmiss : freshData cache (cacheKeyOf ip) now = none) :
    ((lookupIP env now cache ip).called.map Prod.fst).head? = some "ipapi.co" := by
  rw [lookupIP_miss env now cache ip hmiss]
  rcases tryServices_spec env now (cacheKeyOf ip)
      (if useAuto ip then none else some ip) services 0 cache with
    ⟨j, svc, v, _, _, _, heq⟩ | ⟨_, heq⟩ <;>
    rw [heq] <;> simp [services, List.take, ipapiService]

theorem ipapiService_name : ipapiService.name = "ipapi.co" := rfl

theorem ipApiComService_name : ipApiComService.name = "ip-api.com" := rfl

theorem ipinfoService_name : ipinfoService.name = "ipinfo.io" := rfl

/-- A fresh hit in the cache decomposed into its pieces. -/
theorem freshData_some_elim (cache : Cache) (key : String) (now : Nat)
    (d : JsVal) (h : freshData cache key now = some d) :
    ∃ e, cacheGet cache key = some e ∧ now - e.timestamp < CACHE_DURATION ∧
      e.data = d := by
  cases hg : cacheGet cache key with
  | none =>
    simp only [freshData, hg] at h
    exact absurd h (by simp)
  | some e =>
    simp only [freshData, hg] at h
    by_cases hlt : now - e.timestamp < CACHE_DURATION
    · rw [if_pos hlt] at h
      exact ⟨e, rfl, hlt, by injection h⟩
    · rw [if_neg hlt] at h
      exact absurd h (by simp)

/-- When every provider attempt fails, a miss returns the empty record,
touches no cache entry, and fetches from all providers in order. -/
theorem lookupIP_allfail (env : Nat → FetchOutcome) (now : Nat) (cache : Cache)
    (ip : String)
    (hmiss : freshData cache (cacheKeyOf ip) now = none)
    (hfail : ∀ j svc, services.get? j = some svc →
      attemptOk (attemptService svc (env j)) = false) :
    lookupIP env now cache ip =
      ⟨.obj [], cache,
        services.map fun s => (s.name, if useAuto ip then none else some ip)⟩ := by
  rw [lookupIP_miss env now cache ip hmiss]
  rcases tryServices_spec env now (cacheKeyOf ip)
      (if useAuto ip then none else some ip) services 0 cache with
    ⟨j, svc, v, hget, hok, _, _⟩ | ⟨_, heq⟩
  · exfalso
    have hf := hfail j svc hget
    rw [Nat.zero_add] at hok
    rw [hok] at hf
    exact absurd hf (by simp [attemptOk])
  · exact heq

/-- C1.  For every resolve call on an uncached key, providers are tried
strictly in the fixed list order (ipapi.co, ip-api.com, ipinfo.io) and each
is attempted at most once — the trace of fetched providers is always an
in-order prefix of the duplicate-free provider-name list — and the first
`Success` outcome is returned: when provider 1 answers HTTP 429 and
provider 2 succeeds, the result is provider 2's transformed output, it is
what gets cached, and provider 3 is never fetched from. -/
theorem C1_fallback_order (env : Nat → FetchOutcome) (now : Nat) (cache : Cache)
    (ip : String) (body0 : Except Unit JsVal) (status1 : Nat) (json rec : JsVal)
    (hmiss : freshData cache (cacheKeyOf ip) now = none)
    (h0 : env 0 = .response 429 body0)
    (h1 : env 1 = .response status1 (.ok json))
    (hok : resOk status1 = true)
    (ht : ipApiTransform json = .ok rec) :
    ((services.map Service.name).Nodup ∧
      ∀ env' now' cache' ip',
        ((lookupIP env' now' cache' ip').called.map Prod.fst) <+:
          services.map Service.name) ∧
    (lookupIP env now cache ip).value = rec ∧
    (lookupIP env now cache ip).called.map Prod.fst = ["ipapi.co", "ip-api.com"] ∧
    (lookupIP env now cache ip).cache =
      cacheSet cache (cacheKeyOf ip) ⟨rec, now⟩ := by
  have hA0 : attemptService ipapiService (env 0) = .error () := by
    rw [h0]; rfl
  have hA1 : attemptService ipApiComService (env 1) = .ok rec := by
    rw [h1]
    simp [attemptService, hok, ipApiComService, ht]
  rw [lookupIP_miss env now cache ip hmiss]
  refine ⟨⟨by decide, fun env' now' cache' ip' =>
    lookupIP_called_names env' now' cache' ip'⟩, ?_, ?_, ?_⟩ <;>
    simp [services, tryServices, hA0, hA1, ipapiService_name, ipApiComService_name]

/-- Witness for C1 at a concrete input: provider 1 rate limited, provider 2
succeeding on an empty body, uncached key `8.8.8.8` at time 0. -/
theorem C1_fallback_order_witness :
    (lookupIP
      (fun j => if j = 0 then .response 429 (.error ())
                else .response 200 (.ok (.obj []))) 0 [] "8.8.8.8").called.map
        Prod.fst = ["ipapi.co", "ip-api.com"] :=
  (C1_fallback_order
    (fun j => if j = 0 then .response 429 (.error ())
              else .response 200 (.ok (.obj []))) 0 [] "8.8.8.8"
    (.error ()) 200 (.obj [])
    (.obj [("ip", .jsUndefined), ("city", .jsUndefined), ("region", .jsUndefined),
      ("region_code", .jsUndefined), ("country", .jsUndefined), ("country_name", .jsUndefined),
      ("country_code", .jsUndefined), ("latitude", .jsUndefined), ("longitude", .jsUndefined),
      ("timezone", .jsUndefined), ("org", .jsUndefined), ("postal", .jsUndefined)])
    rfl rfl rfl rfl rfl).2.2.1

/-- C2.  When every provider fails on a miss, resolve returns the empty
record (all fields absent), writes nothing to the cache, and fetched from
all three providers; since the cache is unchanged, a later call for the
same key under an all-failing environment again fetches from all three
providers — no negative caching. -/
theorem C2_total_failure_uncached (env : Nat → FetchOutcome) (now : Nat)
    (cache : Cache) (ip : String)
    (hmiss : freshData cache (cacheKeyOf ip) now = none)
    (hfail : ∀ j svc, services.get? j = some svc →
      attemptOk (attemptService svc (env j)) = false) :
    (lookupIP env now cache ip).value = .obj [] ∧
    (lookupIP env now cache ip).cache = cache ∧
    (lookupIP env now cache ip).called.map Prod.fst =
      ["ipapi.co", "ip-api.com", "ipinfo.io"] ∧
    ∀ env' now', now ≤ now' →
      (∀ j svc, services.get? j = some svc →
        attemptOk (attemptService svc (env' j)) = false) →
      (lookupIP env' now' (lookupIP env now cache ip).cache ip).called.map
          Prod.fst = ["ipapi.co", "ip-api.com", "ipinfo.io"] := by
  have h1 := lookupIP_allfail env now cache ip hmiss hfail
  rw [h1]
  refine ⟨rfl, rfl, by simp [services, ipapiService, ipApiComService, ipinfoService], ?_⟩
  intro env' now' hle hfail'
  have hmiss' := freshData_none_mono cache (cacheKeyOf ip) now now' hmiss hle
  have h2 := lookupIP_allfail env' now' cache ip hmiss' hfail'
  rw [h2]
  simp [services, ipapiService, ipApiComService, ipinfoService]

/-- Witness for C2 at a concrete input: transport errors everywhere,
uncached key `203.0.113.5`. -/
theorem C2_total_failure_uncached_witness :
    (lookupIP (fun _ => .transportError) 0 [] "203.0.113.5").value = .obj [] ∧
    (lookupIP (fun _ => .transportError) 0 [] "203.0.113.5").cache = [] :=
  ⟨(C2_total_failure_uncached (fun _ => .transportError) 0 [] "203.0.113.5"
      rfl (fun _ _ _ => rfl)).1,
   (C2_total_failure_uncached (fun _ => .transportError) 0 [] "203.0.113.5"
      rfl (fun _ _ _ => rfl)).2.1⟩

/-- C3.  A fresh cache hit returns the cached data with no provider fetch;
composed: after a successful miss at `now0`, any second call within the TTL
window returns that cached value and fetches from no provider, so the two
calls issue exactly one set of provider calls in total. -/
theorem C3_cache_hit_no_fetch (env : Nat → FetchOutcome) (now : Nat)
    (cache : Cache) (ip : String) (e : CacheEntry)
    (hhit : cacheGet cache (cacheKeyOf ip) = some e)
    (hfresh : now - e.timestamp < CACHE_DURATION) :
    lookupIP env now cache ip = ⟨e.data, cache, []⟩ ∧
    ∀ env0 now0 cache0 env1 now1,
      freshData cache0 (cacheKeyOf ip) now0 = none →
      (∃ j svc, services.get? j = some svc ∧
        attemptOk (attemptService svc (env0 j)) = true) →
      now1 - now0 < CACHE_DURATION →
      lookupIP env1 now1 (lookupIP env0 now0 cache0 ip).cache ip =
        ⟨(lookupIP env0 now0 cache0 ip).value,
          (lookupIP env0 now0 cache0 ip).cache, []⟩ := by
  refine ⟨lookupIP_hit env now cache ip e hhit hfresh, ?_⟩
  intro env0 now0 cache0 env1 now1 hmiss hex hwin
  have hw := lookupIP_success_writes env0 now0 cache0 ip hmiss hex
  exact lookupIP_hit env1 now1 _ ip
    ⟨(lookupIP env0 now0 cache0 ip).value, now0⟩ hw (by simpa using hwin)

/-- Witness for C3 at a concrete input: an entry stored at time 100, read
at time 150, well within the 24h TTL. -/
theorem C3_cache_hit_no_fetch_witness :
    lookupIP (fun _ => .transportError) 150
      [("1.2.3.4", ⟨.str "cached", 100⟩)] "1.2.3.4" =
      ⟨.str "cached", [("1.2.3.4", ⟨.str "cached", 100⟩)], []⟩ :=
  (C3_cache_hit_no_fetch (fun _ => .transportError) 150
    [("1.2.3.4", ⟨.str "cached", 100⟩)] "1.2.3.4" ⟨.str "cached", 100⟩
    rfl (by decide)).1

/-- C4.  An entry at least TTL old is never served as a hit: the call
fetches (starting at provider 1), and when some provider succeeds the
entry is overwritten with the fresh value and the fresh timestamp. -/
theorem C4_cache_expiry_refetch (env : Nat → FetchOutcome) (now : Nat)
    (cache : Cache) (ip : String) (e : CacheEntry)
    (hentry : cacheGet cache (cacheKeyOf ip) = some e)
    (hstale : CACHE_DURATION ≤ now - e.timestamp) :
    ((lookupIP env now cache ip).called.map Prod.fst).head? = some "ipapi.co" ∧
    ((∃ j svc, services.get? j = some svc ∧
        attemptOk (attemptService svc (env j)) = true) →
      cacheGet (lookupIP env now cache ip).cache (cacheKeyOf ip) =
        some ⟨(lookupIP env now cache ip).value, now⟩) := by
  have hmiss : freshData cache (cacheKeyOf ip) now = none := by
    simp only [freshData, hentry]
    have hlt : ¬ now - e.timestamp < CACHE_DURATION := by omega
    simp [hlt]
  exact ⟨lookupIP_miss_calls_first env now cache ip hmiss,
    fun hex => lookupIP_success_writes env now cache ip hmiss hex⟩

/-- Witness for C4 at a concrete input: an entry stored at time 0 read at
a time past the TTL. -/
theorem C4_cache_expiry_refetch_witness :
    ((lookupIP (fun _ => .transportError) 100000000
        [("1.2.3.4", ⟨.str "stale", 0⟩)] "1.2.3.4").called.map
          Prod.fst).head? = some "ipapi.co" :=
  (C4_cache_expiry_refetch (fun _ => .transportError) 100000000
    [("1.2.3.4", ⟨.str "stale", 0⟩)] "1.2.3.4" ⟨.str "stale", 0⟩
    rfl (by decide)).1

/-- C8.  `resolve` is total: for every environment of provider outcomes it
returns a value (no error escapes), and that value is either a fresh cache
hit, some provider's successful (possibly transformed) response which is
also cached, or the empty record with the cache untouched. -/
theorem C8_no_error_escapes (env : Nat → FetchOutcome) (now : Nat)
    (cache : Cache) (ip : String) :
    (∃ e, cacheGet cache (cacheKeyOf ip) = some e ∧
      now - e.timestamp < CACHE_DURATION ∧
      lookupIP env now cache ip = ⟨e.data, cache, []⟩) ∨
    (∃ j svc, services.get? j = some svc ∧
      attemptService svc (env j) = .ok (lookupIP env now cache ip).value ∧
      (lookupIP env now cache ip).cache =
        cacheSet cache (cacheKeyOf ip)
          ⟨(lookupIP env now cache ip).value, now⟩) ∨
    ((lookupIP env now cache ip).value = .obj [] ∧
      (lookupIP env now cache ip).cache = cache) := by
  cases hF : freshData cache (cacheKeyOf ip) now with
  | some d =>
    left
    obtain ⟨e, hg, hlt, hd⟩ := freshData_some_elim cache (cacheKeyOf ip) now d hF
    exact ⟨e, hg, hlt, by simp [lookupIP, hF, hd]⟩
  | none =>
    right
    rw [lookupIP_miss env now cache ip hF]
    rcases tryServices_spec env now (cacheKeyOf ip)
        (if useAuto ip then none else some ip) services 0 cache with
      ⟨j, svc, v, hget, hok, _, heq⟩ | ⟨_, heq⟩
    · left
      rw [Nat.zero_add] at hok
      exact ⟨j, svc, hget, by rw [heq]; exact hok, by rw [heq]⟩
    · right
      rw [heq]
      exact ⟨rfl, rfl⟩

/-- C9.  Frame property of one resolve call: the cache under every key
other than the call's own key is untouched, no existing entry is ever
removed, and the only removing operation — the full clear — leaves the
empty map. -/
theorem C9_frame_effect (env : Nat → FetchOutcome) (now : Nat) (cache : Cache)
    (ip : String) (k : String) (hk : k ≠ cacheKeyOf ip) :
    cacheGet (lookupIP env now cache ip).cache k = cacheGet cache k ∧
    (∀ k' e, cacheGet cache k' = some e →
      ∃ e', cacheGet (lookupIP env now cache ip).cache k' = some e') ∧
    (∀ k', cacheGet clearedCache k' = none) := by
  have hc : (lookupIP env now cache ip).cache = cache ∨
      ∃ w, (lookupIP env now cache ip).cache =
        cacheSet cache (cacheKeyOf ip) ⟨w, now⟩ := by
    cases hF : freshData cache (cacheKeyOf ip) now with
    | some d =>
      left
      simp [lookupIP, hF]
    | none =>
      rw [lookupIP_miss env now cache ip hF]
      rcases tryServices_spec env now (cacheKeyOf ip)
          (if useAuto ip then none else some ip) services 0 cache with
        ⟨j, svc, v, _, _, _, heq⟩ | ⟨_, heq⟩
      · right
        exact ⟨v, by rw [heq]⟩
      · left
        rw [heq]
  rcases hc with hc | ⟨w, hc⟩
  · rw [hc]
    exact ⟨rfl, fun k' e h => ⟨e, h⟩, fun k' => rfl⟩
  · rw [hc]
    refine ⟨cacheGet_set_other cache (cacheKeyOf ip) k ⟨w, now⟩ hk, ?_, fun k' => rfl⟩
    intro k' e h
    by_cases hk' : k' = cacheKeyOf ip
    · subst hk'
      exact ⟨⟨w, now⟩, cacheGet_set_self cache (cacheKeyOf ip) ⟨w, now⟩⟩
    · exact ⟨e, by rw [cacheGet_set_other cache (cacheKeyOf ip) k' ⟨w, now⟩ hk']; exact h⟩

/-- Witness for C9 at a concrete input: a key other than the resolved one
is untouched. -/
theorem C9_frame_effect_witness :
    cacheGet (lookupIP (fun _ => .transportError) 0 [] "1.2.3.4").cache
      "5.6.7.8" = cacheGet [] "5.6.7.8" :=
  (C9_frame_effect (fun _ => .transportError) 0 [] "1.2.3.4" "5.6.7.8"
    (by decide)).1

/-- C10.  The first provider (ipapi.co) has no transform: when it succeeds
on a miss, resolve returns and caches the raw parsed body unmodified, and
only provider 1 is fetched from. -/
theorem C10_provider1_raw_passthrough (env : Nat → FetchOutcome) (now : Nat)
    (cache : Cache) (ip : String) (status : Nat) (json : JsVal)
    (hmiss : freshData cache (cacheKeyOf ip) now = none)
    (h0 : env 0 = .response status (.ok json))
    (hok : resOk status = true) :
    ipapiService.transform = none ∧
    services.get? 0 = some ipapiService ∧
    (lookupIP env now cache ip).value = json ∧
    cacheGet (lookupIP env now cache ip).cache (cacheKeyOf ip) =
      some ⟨json, now⟩ ∧
    (lookupIP env now cache ip).called.map Prod.fst = ["ipapi.co"] := by
  have hA0 : attemptService ipapiService (env 0) = .ok json := by
    rw [h0]
    simp [attemptService, hok, ipapiService]
  rw [lookupIP_miss env now cache ip hmiss]
  refine ⟨rfl, rfl, ?_, ?_, ?_⟩
  · simp [services, tryServices, hA0]
  · simp [services, tryServices, hA0, cacheGet_set_self]
  · simp [services, tryServices, hA0, ipapiService_name]

/-- C6.  Normalization fidelity of the provider-2 (ip-api.com) transform on
the spec's sample raw response.  The spec's canonical LocationRecord field
names are realized in the code by the JSON keys shared with provider 1's
native shape: regionCode as `region_code`, countryName as `country_name`,
countryCode as `country_code`, organization as `org`, postalCode as
`postal`; latitude 1.5 is the rational 3/2 and longitude -2.5 is -5/2.
`country` is copied into both `country` and `country_name`, `isp` lands in
`org` (the raw response carries no `org`), and the remaining canonical
field, `timezone`, is observationally absent. -/
theorem C6_normalization_fidelity :
    ipApiTransform (.obj
      [("query", .str "1.2.3.4"), ("city", .str "X"), ("regionName", .str "Y"),
       ("region", .str "YY"), ("country", .str "Z"), ("countryCode", .str "ZZ"),
       ("lat", .num (3/2)), ("lon", .num (-(5/2))), ("isp", .str "ACME"),
       ("zip", .str "00000")]) =
      .ok (.obj
        [("ip", .str "1.2.3.4"), ("city", .str "X"), ("region", .str "Y"),
         ("region_code", .str "YY"), ("country", .str "Z"),
         ("country_name", .str "Z"), ("country_code", .str "ZZ"),
         ("latitude", .num (3/2)), ("longitude", .num (-(5/2))),
         ("timezone", .jsUndefined), ("org", .str "ACME"),
         ("postal", .str "00000")]) ∧
    fieldAbsent (.obj
        [("ip", .str "1.2.3.4"), ("city", .str "X"), ("region", .str "Y"),
         ("region_code", .str "YY"), ("country", .str "Z"),
         ("country_name", .str "Z"), ("country_code", .str "ZZ"),
         ("latitude", .num (3/2)), ("longitude", .num (-(5/2))),
         ("timezone", .jsUndefined), ("org", .str "ACME"),
         ("postal", .str "00000")]) "timezone" = true :=
  ⟨rfl, rfl⟩

/-- C7 counterexample: the ipinfo.io transform applied to a raw response
whose `loc` is present but unparsable (`"abc"`) yields `latitude = NaN` —
a present placeholder value, not an absent field — refuting the claim that
an unparsable coordinate always yields an absent field. -/
theorem C7_unparsable_loc_counterexample :
    ipinfoTransform (.obj [("loc", .str "abc")]) =
      .ok (.obj
        [("ip", .jsUndefined), ("city", .jsUndefined), ("region", .jsUndefined),
         ("country", .jsUndefined), ("country_name", .jsUndefined), ("latitude", .nan),
         ("longitude", .nan), ("org", .jsUndefined), ("postal", .jsUndefined),
         ("timezone", .jsUndefined)]) ∧
    fieldAbsent (.obj
        [("ip", .jsUndefined), ("city", .jsUndefined), ("region", .jsUndefined),
         ("country", .jsUndefined), ("country_name", .jsUndefined), ("latitude", .nan),
         ("longitude", .nan), ("org", .jsUndefined), ("postal", .jsUndefined),
         ("timezone", .jsUndefined)]) "latitude" = false :=
  ⟨rfl, rfl⟩

/-- C7 as amended.  The ip-api.com transform copies `lat`/`lon` through
unchanged, so missing raw coordinates yield absent fields there.  The
ipinfo.io transform splits a parsable `loc` string into two numbers
(exact-rational model of the doubles); but a missing (falsy) `loc` yields
`null` coordinates and an unparsable `loc` yields `NaN` — present
placeholder values rather than absent fields. -/
theorem C7_coordinate_absence :
    (∀ fs, ∃ out, ipApiTransform (.obj fs) = .ok out ∧
      (objLookup fs "lat" = none → fieldAbsent out "latitude" = true) ∧
      (objLookup fs "lon" = none → fieldAbsent out "longitude" = true) ∧
      (∀ v, objLookup fs "lat" = some v → getField out "latitude" = .ok v)) ∧
    (∃ out, ipinfoTransform (.obj [("loc", .str "1.5,-2.5")]) = .ok out ∧
      getField out "latitude" = .ok (.num (3/2)) ∧
      getField out "longitude" = .ok (.num (-(5/2)))) ∧
    (∀ fs, objLookup fs "loc" = none →
      ∃ out, ipinfoTransform (.obj fs) = .ok out ∧
        getField out "latitude" = .ok .jsNull ∧
        getField out "longitude" = .ok .jsNull ∧
        fieldAbsent out "latitude" = false) ∧
    (∃ out, ipinfoTransform (.obj [("loc", .str "abc")]) = .ok out ∧
      getField out "latitude" = .ok .nan ∧
      fieldAbsent out "latitude" = false) := by
  have hlat : parseFloatString "1.5" = .num (3/2) := by
    have h : parseFloatString "1.5" =
        .num (applyExp ((digitsVal ['1'] : Rat) +
          (digitsVal ['5'] : Rat) / ((10 : Rat) ^ (1 : Nat))) 0) := rfl
    rw [h]
    norm_num [digitsVal, applyExp, show '1'.toNat = 49 from rfl,
      show '5'.toNat = 53 from rfl]
  have hlon : parseFloatString "-2.5" = .num (-(5/2)) := by
    have h : parseFloatString "-2.5" =
        .num (applyExp (-((digitsVal ['2'] : Rat) +
          (digitsVal ['5'] : Rat) / ((10 : Rat) ^ (1 : Nat)))) 0) := rfl
    rw [h]
    norm_num [digitsVal, applyExp, show '2'.toNat = 50 from rfl,
      show '5'.toNat = 53 from rfl]
  refine ⟨?_, ?_, ?_, ?_⟩
  · intro fs
    refine ⟨_, rfl, ?_, ?_, ?_⟩
    · intro h
      simp [fieldAbsent, getField, objLookup, readField, h]
    · intro h
      simp [fieldAbsent, getField, objLookup, readField, h]
    · intro v h
      simp [getField, objLookup, readField, h]
  · refine ⟨.obj
      [("ip", .jsUndefined), ("city", .jsUndefined), ("region", .jsUndefined),
       ("country", .jsUndefined), ("country_name", .jsUndefined),
       ("latitude", .num (3/2)), ("longitude", .num (-(5/2))),
       ("org", .jsUndefined), ("postal", .jsUndefined), ("timezone", .jsUndefined)],
      ?_, rfl, rfl⟩
    calc ipinfoTransform (.obj [("loc", .str "1.5,-2.5")]) =
        .ok (.obj
          [("ip", .jsUndefined), ("city", .jsUndefined), ("region", .jsUndefined),
           ("country", .jsUndefined), ("country_name", .jsUndefined),
           ("latitude", parseFloatString "1.5"),
           ("longitude", parseFloatString "-2.5"),
           ("org", .jsUndefined), ("postal", .jsUndefined), ("timezone", .jsUndefined)]) := rfl
      _ = _ := by rw [hlat, hlon]
  · intro fs h
    refine ⟨.obj
      [("ip", readField (.obj fs) "ip"), ("city", readField (.obj fs) "city"),
       ("region", readField (.obj fs) "region"),
       ("country", readField (.obj fs) "country"),
       ("country_name", readField (.obj fs) "country"),
       ("latitude", .jsNull), ("longitude", .jsNull),
       ("org", readField (.obj fs) "org"),
       ("postal", readField (.obj fs) "postal"),
       ("timezone", readField (.obj fs) "timezone")], ?_, ?_, ?_, ?_⟩ <;>
      simp [ipinfoTransform, readField, h, truthy, fieldAbsent, getField, objLookup]
  · exact ⟨_, rfl, rfl, rfl⟩

/-- Witness for C7 at a concrete input: the empty ip-api.com raw response
has no `lat`, and the transformed record's latitude is absent. -/
theorem C7_coordinate_absence_witness :
    objLookup [] "lat" = none ∧
    ∃ out, ipApiTransform (.obj []) = .ok out ∧
      fieldAbsent out "latitude" = true := by
  obtain ⟨out, h1, h2, _, _⟩ := C7_coordinate_absence.1 []
  exact ⟨rfl, out, h1, h2 rfl⟩

/-! Structure of `splitChar` and canonical decimal octets, used to relate
the source's prefix-string tests to CIDR membership of parsed addresses. -/

theorem splitChar_ne_nil (sep : Char) (cs : List Char) :
    splitChar sep cs ≠ [] := by
  induction cs with
  | nil => simp [splitChar]
  | cons c rest ih =>
    by_cases h : c = sep
    · simp [splitChar, h]
    · simp only [splitChar, if_neg h]
      cases hs : splitChar sep rest with
      | nil => simp
      | cons g gs => simp

/-- Shape of a `splitChar` result: the first piece is separator-free, and
either it is the whole input (no separator left) or the input is that
piece, a separator, and a remainder splitting into the other pieces. -/
theorem splitChar_cons_elim (sep : Char) :
    ∀ (cs t : List Char) (ts : List (List Char)),
      splitChar sep cs = t :: ts →
      sep ∉ t ∧ ((ts = [] ∧ cs = t) ∨
        ∃ cs', cs = t ++ sep :: cs' ∧ splitChar sep cs' = ts) := by
  intro cs
  induction cs with
  | nil =>
    intro t ts h
    simp only [splitChar] at h
    injection h with h1 h2
    subst h1
    exact ⟨by simp, Or.inl ⟨h2.symm, rfl⟩⟩
  | cons c rest ih =>
    intro t ts h
    by_cases hc : c = sep
    · simp only [splitChar, if_pos hc] at h
      injection h with h1 h2
      refine ⟨by rw [← h1]; simp, Or.inr ⟨rest, ?_, h2⟩⟩
      rw [← h1]
      simp [hc]
    · have hnil := splitChar_ne_nil sep rest
      cases hrec : splitChar sep rest with
      | nil => exact absurd hrec hnil
      | cons g gs =>
        simp only [splitChar, if_neg hc, hrec] at h
        injection h with h1 h2
        obtain ⟨hg, hrest⟩ := ih g gs hrec
        constructor
        · rw [← h1]
          simp only [List.mem_cons]
          rintro (h' | h')
          · exact hc h'.symm
          · exact hg h'
        · rcases hrest with ⟨hts, hcs⟩ | ⟨cs', hcs, hsp⟩
          · left
            refine ⟨h2.symm.trans hts, ?_⟩
            rw [hcs]
            exact h1
          · right
            refine ⟨cs', ?_, h2 ▸ hsp⟩
            rw [hcs, ← h1]
            rfl

/-- A prefix that reaches past a separator pins down the separator-free
token before it. -/
theorem prefix_through_sep (sep : Char) :
    ∀ (p t q r : List Char), sep ∉ p → sep ∉ t →
      ((p ++ sep :: q) <+: (t ++ sep :: r) ↔ p = t ∧ q <+: r) := by
  intro p
  induction p with
  | nil =>
    intro t q r _ ht
    cases t with
    | nil => simp
    | cons c t' =>
      simp only [List.nil_append, List.cons_append]
      rw [List.cons_prefix_cons]
      constructor
      · rintro ⟨h1, _⟩
        exact absurd (by rw [h1]; exact List.mem_cons_self c t') ht
      · rintro ⟨h, _⟩
        exact absurd h (by simp)
  | cons x p' ih =>
    intro t q r hp ht
    cases t with
    | nil =>
      simp only [List.nil_append, List.cons_append]
      rw [List.cons_prefix_cons]
      constructor
      · rintro ⟨h1, _⟩
        exact absurd (by rw [← h1]; exact List.mem_cons_self x p') hp
      · rintro ⟨h, _⟩
        exact absurd h (by simp)
    | cons c t' =>
      simp only [List.cons_append]
      rw [List.cons_prefix_cons]
      have hp' : sep ∉ p' := fun hm => hp (List.mem_cons_of_mem x hm)
      have ht' : sep ∉ t' := fun hm => ht (List.mem_cons_of_mem c hm)
      rw [ih t' q r hp' ht']
      constructor
      · rintro ⟨h1, h2, h3⟩
        exact ⟨by rw [h1, h2], h3⟩
      · rintro ⟨h, h3⟩
        have h1 : x = c := by injection h
        have h2 : p' = t' := by injection h
        exact ⟨h1, h2, h3⟩

theorem char_eq_of_toNat_eq {c d : Char} (h : c.toNat = d.toNat) : c = d := by
  have h1 := Char.ofNat_toNat c
  have h2 := Char.ofNat_toNat d
  rw [← h1, ← h2, h]

theorem digitsVal_foldl (ds : List Char) :
    ∀ a : Nat, ds.foldl (fun acc c => 10 * acc + (c.toNat - 48)) a =
      a * 10 ^ ds.length + digitsVal ds := by
  induction ds with
  | nil =>
    intro a
    simp [digitsVal]
  | cons c rest ih =>
    intro a
    simp only [List.foldl_cons, digitsVal, List.length_cons]
    rw [ih (10 * a + (c.toNat - 48)), ih (10 * 0 + (c.toNat - 48))]
    ring

theorem digitsVal_cons (c : Char) (ds : List Char) :
    digitsVal (c :: ds) = (c.toNat - 48) * 10 ^ ds.length + digitsVal ds := by
  simp only [digitsVal, List.foldl_cons]
  rw [digitsVal_foldl ds (10 * 0 + (c.toNat - 48)), digitsVal_foldl ds 0]
  ring

theorem digitsVal_lt (ds : List Char) (h : ∀ c ∈ ds, isDigitNat c = true) :
    digitsVal ds < 10 ^ ds.length := by
  induction ds with
  | nil => simp [digitsVal]
  | cons c rest ih =>
    have hc := h c (List.mem_cons_self c rest)
    simp only [isDigitNat, decide_eq_true_eq] at hc
    have hrest := ih (fun x hm => h x (List.mem_cons_of_mem c hm))
    rw [digitsVal_cons, List.length_cons]
    have h9 : c.toNat - 48 ≤ 9 := by omega
    calc (c.toNat - 48) * 10 ^ rest.length + digitsVal rest
        < (c.toNat - 48) * 10 ^ rest.length + 10 ^ rest.length := by omega
      _ = (c.toNat - 48 + 1) * 10 ^ rest.length := by ring
      _ ≤ 10 * 10 ^ rest.length := Nat.mul_le_mul_right _ (by omega)
      _ = 10 ^ (rest.length + 1) := by ring

theorem digitsVal_head_ge (c : Char) (ds : List Char) (h : 49 ≤ c.toNat) :
    10 ^ ds.length ≤ digitsVal (c :: ds) := by
  rw [digitsVal_cons]
  have h1 : 1 ≤ c.toNat - 48 := by omega
  calc 10 ^ ds.length = 1 * 10 ^ ds.length := by ring
    _ ≤ (c.toNat - 48) * 10 ^ ds.length := Nat.mul_le_mul_right _ h1
    _ ≤ _ := Nat.le_add_right _ _

theorem octetOk_iff {t : List Char} : octetOk t = true ↔
    (t ≠ [] ∧ (∀ c ∈ t, isDigitNat c = true) ∧
      (t.head? = some '0' → t = ['0']) ∧ digitsVal t ≤ 255) := by
  simp only [octetOk, decide_eq_true_eq]

theorem octetOk_length {t : List Char} (ht : octetOk t = true) :
    t.length ≤ 3 := by
  obtain ⟨hne, hdig, hzero, hle⟩ := octetOk_iff.mp ht
  by_contra hlen
  push_neg at hlen
  cases t with
  | nil => exact hne rfl
  | cons c rest =>
    have hc0 : c ≠ '0' := by
      intro he
      have h1 := hzero (by rw [he]; rfl)
      have h2 : rest = [] := by
        rw [he] at h1
        injection h1
      rw [h2] at hlen
      simp at hlen
    have hc49 : 49 ≤ c.toNat := by
      have hcd := hdig c (List.mem_cons_self c rest)
      simp only [isDigitNat, decide_eq_true_eq] at hcd
      have h48 : c.toNat ≠ 48 :=
        fun h => hc0 (char_eq_of_toNat_eq (by rw [h]; rfl))
      omega
    have hge := digitsVal_head_ge c rest hc49
    have h3 : 3 ≤ rest.length := by
      simp only [List.length_cons] at hlen
      omega
    have h1000 : 1000 ≤ 10 ^ rest.length := by
      calc (1000 : Nat) = 10 ^ 3 := by norm_num
        _ ≤ 10 ^ rest.length := Nat.pow_le_pow_right (by norm_num) h3
    omega

/-- Canonical octet tokens for the four first-octet-group values that the
classification needs. -/
theorem octet_val_canon {t : List Char} (ht : octetOk t = true) :
    (digitsVal t = 10 ↔ t = ['1', '0']) ∧
    (digitsVal t = 172 ↔ t = ['1', '7', '2']) ∧
    (digitsVal t = 192 ↔ t = ['1', '9', '2']) ∧
    (digitsVal t = 168 ↔ t = ['1', '6', '8']) := by
  obtain ⟨hne, hdig, hzero, hle⟩ := octetOk_iff.mp ht
  have hlen := octetOk_length ht
  rcases t with _ | ⟨a, _ | ⟨b, _ | ⟨c, _ | ⟨d, rest⟩⟩⟩⟩
  · exact absurd rfl hne
  · have ha := hdig a (by simp)
    simp only [isDigitNat, decide_eq_true_eq] at ha
    have hv : digitsVal [a] = a.toNat - 48 := by
      simp [digitsVal]
    rw [hv]
    have hsmall : a.toNat - 48 ≤ 9 := by omega
    exact ⟨iff_of_false (by omega) (by simp),
      iff_of_false (by omega) (by simp),
      iff_of_false (by omega) (by simp),
      iff_of_false (by omega) (by simp)⟩
  · have ha := hdig a (by simp)
    have hb := hdig b (by simp)
    simp only [isDigitNat, decide_eq_true_eq] at ha hb
    have hv : digitsVal [a, b] = 10 * (a.toNat - 48) + (b.toNat - 48) := by
      simp only [digitsVal, List.foldl_cons, List.foldl_nil]
      omega
    rw [hv]
    have h99 : 10 * (a.toNat - 48) + (b.toNat - 48) ≤ 99 := by omega
    refine ⟨⟨fun h => ?_, fun h => ?_⟩,
      iff_of_false (by omega) (by simp),
      iff_of_false (by omega) (by simp),
      iff_of_false (by omega) (by simp)⟩
    · have ha1 : a = '1' := char_eq_of_toNat_eq (by
        rw [show ('1' : Char).toNat = 49 from rfl]
        omega)
      have hb0 : b = '0' := char_eq_of_toNat_eq (by
        rw [show ('0' : Char).toNat = 48 from rfl]
        omega)
      rw [ha1, hb0]
    · injection h with h1 h2
      injection h2 with h2 _
      rw [h1, h2]
      rfl
  · have ha := hdig a (by simp)
    have hb := hdig b (by simp)
    have hc := hdig c (by simp)
    simp only [isDigitNat, decide_eq_true_eq] at ha hb hc
    have ha0 : a ≠ '0' := by
      intro he
      have h1 := hzero (by rw [he]; rfl)
      rw [he] at h1
      injection h1 with _ h2
      simp at h2
    have ha49 : 49 ≤ a.toNat :=
      have h48 : a.toNat ≠ 48 :=
        fun h => ha0 (char_eq_of_toNat_eq (by rw [h]; rfl))
      by omega
    have hv : digitsVal [a, b, c] =
        100 * (a.toNat - 48) + 10 * (b.toNat - 48) + (c.toNat - 48) := by
      simp only [digitsVal, List.foldl_cons, List.foldl_nil]
      omega
    rw [hv]
    refine ⟨iff_of_false (by omega) (by simp), ?_, ?_, ?_⟩
    · constructor
      · intro h
        have h1 : a = '1' := char_eq_of_toNat_eq (by
          rw [show ('1' : Char).toNat = 49 from rfl]
          omega)
        have h2 : b = '7' := char_eq_of_toNat_eq (by
          rw [show ('7' : Char).toNat = 55 from rfl]
          omega)
        have h3 : c = '2' := char_eq_of_toNat_eq (by
          rw [show ('2' : Char).toNat = 50 from rfl]
          omega)
        rw [h1, h2, h3]
      · intro h
        injection h with h1 h2
        injection h2 with h2 h3
        injection h3 with h3 _
        rw [h1, h2, h3]
        rfl
    · constructor
      · intro h
        have h1 : a = '1' := char_eq_of_toNat_eq (by
          rw [show ('1' : Char).toNat = 49 from rfl]
          omega)
        have h2 : b = '9' := char_eq_of_toNat_eq (by
          rw [show ('9' : Char).toNat = 57 from rfl]
          omega)
        have h3 : c = '2' := char_eq_of_toNat_eq (by
          rw [show ('2' : Char).toNat = 50 from rfl]
          omega)
        rw [h1, h2, h3]
      · intro h
        injection h with h1 h2
        injection h2 with h2 h3
        injection h3 with h3 _
        rw [h1, h2, h3]
        rfl
    · constructor
      · intro h
        have h1 : a = '1' := char_eq_of_toNat_eq (by
          rw [show ('1' : Char).toNat = 49 from rfl]
          omega)
        have h2 : b = '6' := char_eq_of_toNat_eq (by
          rw [show ('6' : Char).toNat = 54 from rfl]
          omega)
        have h3 : c = '8' := char_eq_of_toNat_eq (by
          rw [show ('8' : Char).toNat = 56 from rfl]
          omega)
        rw [h1, h2, h3]
      · intro h
        injection h with h1 h2
        injection h2 with h2 h3
        injection h3 with h3 _
        rw [h1, h2, h3]
        rfl
  · exfalso
    simp only [List.length_cons] at hlen
    omega

/-- What a successful `parseIPv4` says about the string. -/
theorem parseIPv4_elim {ip : String} {a b c d : Nat}
    (h : parseIPv4 ip = some (a, b, c, d)) :
    ∃ t1 t2 t3 t4, splitChar '.' ip.data = [t1, t2, t3, t4] ∧
      octetOk t1 = true ∧ octetOk t2 = true ∧ octetOk t3 = true ∧
      octetOk t4 = true ∧ a = digitsVal t1 ∧ b = digitsVal t2 ∧
      c = digitsVal t3 ∧ d = digitsVal t4 := by
  simp only [parseIPv4] at h
  rcases hsp : splitChar '.' ip.data with
    _ | ⟨t1, _ | ⟨t2, _ | ⟨t3, _ | ⟨t4, _ | ⟨t5, ts⟩⟩⟩⟩⟩ <;>
    rw [hsp] at h <;> try simp at h
  obtain ⟨⟨⟨⟨h1, h2⟩, h3⟩, h4⟩, hva, hvb, hvc, hvd⟩ := h
  exact ⟨t1, t2, t3, t4, rfl, h1, h2, h3, h4,
    hva.symm, hvb.symm, hvc.symm, hvd.symm⟩

/-- A parsed dotted-quad decomposes the string into its four
separator-free octet tokens. -/
theorem parseIPv4_data {ip : String} {t1 t2 t3 t4 : List Char}
    (hsp : splitChar '.' ip.data = [t1, t2, t3, t4]) :
    ('.' ∉ t1 ∧ '.' ∉ t2 ∧ '.' ∉ t3 ∧ '.' ∉ t4) ∧
    ip.data = t1 ++ '.' :: (t2 ++ '.' :: (t3 ++ '.' :: t4)) := by
  obtain ⟨h1, hr1⟩ := splitChar_cons_elim '.' ip.data t1 [t2, t3, t4] hsp
  rcases hr1 with ⟨habs, _⟩ | ⟨cs1, hcs1, hsp1⟩
  · exact absurd habs (by simp)
  obtain ⟨h2, hr2⟩ := splitChar_cons_elim '.' cs1 t2 [t3, t4] hsp1
  rcases hr2 with ⟨habs, _⟩ | ⟨cs2, hcs2, hsp2⟩
  · exact absurd habs (by simp)
  obtain ⟨h3, hr3⟩ := splitChar_cons_elim '.' cs2 t3 [t4] hsp2
  rcases hr3 with ⟨habs, _⟩ | ⟨cs3, hcs3, hsp3⟩
  · exact absurd habs (by simp)
  obtain ⟨h4, hr4⟩ := splitChar_cons_elim '.' cs3 t4 [] hsp3
  rcases hr4 with ⟨_, hcs4⟩ | ⟨cs4, _, hsp4⟩
  · exact ⟨⟨h1, h2, h3, h4⟩, by rw [hcs1, hcs2, hcs3, hcs4]⟩
  · exact absurd hsp4 (splitChar_ne_nil '.' cs4)

/-- The auto-detect test of the source, read as a disjunction of string
facts. -/
theorem useAuto_iff (ip : String) : useAuto ip = true ↔
    (ip = "" ∨ ip = "::1" ∨ ip = "127.0.0.1" ∨
      "192.168.".data <+: ip.data ∨ "10.".data <+: ip.data ∨
      "172.".data <+: ip.data) := by
  simp [useAuto, jsStartsWith, List.isPrefixOf_iff_prefix, Bool.or_eq_true,
    decide_eq_true_eq, or_assoc]

/-- Every fetch of one resolve call passes the same IP argument: `none`
(auto-detect) exactly when the source's classification fires, the literal
input otherwise. -/
theorem lookupIP_called_arg (env : Nat → FetchOutcome) (now : Nat)
    (cache : Cache) (ip : String) :
    ∀ p ∈ (lookupIP env now cache ip).called,
      p.2 = if useAuto ip then none else some ip := by
  intro p hp
  cases hF : freshData cache (cacheKeyOf ip) now with
  | some d =>
    have heq : lookupIP env now cache ip = ⟨d, cache, []⟩ := by
      simp [lookupIP, hF]
    rw [heq] at hp
    simp at hp
  | none =>
    rw [lookupIP_miss env now cache ip hF] at hp
    rcases tryServices_spec env now (cacheKeyOf ip)
        (if useAuto ip then none else some ip) services 0 cache with
      ⟨j, svc, v, _, _, _, heq⟩ | ⟨_, heq⟩ <;>
      rw [heq] at hp <;> simp only [List.mem_map] at hp <;>
      obtain ⟨s, _, rfl⟩ := hp <;> rfl

/-- C5 counterexample: the code's classifier sends `172.32.0.1` — a
well-formed public address outside 172.16.0.0/12 — to auto-detect mode
(every provider fetch of the resolve call passes no IP argument), while
the classification stated by the claim does not fire for it. -/
theorem C5_autodetect_counterexample :
    useAuto "172.32.0.1" = true ∧
    claimAutoClassification "172.32.0.1" = false ∧
    parseIPv4 "172.32.0.1" = some (172, 32, 0, 1) ∧
    (lookupIP (fun _ => .transportError) 0 [] "172.32.0.1").called =
      [("ipapi.co", none), ("ip-api.com", none), ("ipinfo.io", none)] :=
  ⟨rfl, rfl, rfl, rfl⟩

/-- C5 as amended.  For every well-formed dotted-quad input the resolver
auto-detects exactly when the input is the IPv4 loopback literal
`127.0.0.1` or lies in 10.0.0.0/8, 172.0.0.0/8 (the whole first-octet-172
block, not just the private 172.16.0.0/12), or 192.168.0.0/16; the empty
string and `::1` (which are not dotted quads) also auto-detect, the
claim's sample inputs classify as it lists, and the argument passed to
every provider fetch of a resolve call is `none` exactly when the
classifier fires. -/
theorem C5_autodetect_classification :
    (∀ ip a b c d, parseIPv4 ip = some (a, b, c, d) →
      (useAuto ip = true ↔
        (ip = "127.0.0.1" ∨ a = 10 ∨ a = 172 ∨ (a = 192 ∧ b = 168)))) ∧
    useAuto "" = true ∧ useAuto "::1" = true ∧ useAuto "127.0.0.1" = true ∧
    useAuto "10.1.2.3" = true ∧ useAuto "172.16.0.1" = true ∧
    useAuto "192.168.1.1" = true ∧ useAuto "8.8.8.8" = false ∧
    (∀ env now cache ip, ∀ p ∈ (lookupIP env now cache ip).called,
      p.2 = if useAuto ip then none else some ip) := by
  refine ⟨?_, rfl, rfl, rfl, rfl, rfl, rfl, rfl,
    fun env now cache ip => lookupIP_called_arg env now cache ip⟩
  intro ip a b c d hparse
  obtain ⟨t1, t2, t3, t4, hsp, hok1, hok2, hok3, hok4, ha, hb, hc, hd⟩ :=
    parseIPv4_elim hparse
  obtain ⟨⟨hd1, hd2, hd3, hd4⟩, hdata⟩ := parseIPv4_data hsp
  have hne : ¬ ip = "" := by
    intro he
    have h1 : ip.data = [] := by rw [he]
    rw [hdata] at h1
    simp at h1
  have hne2 : ¬ ip = "::1" := by
    intro he
    have hm : ('.' : Char) ∈ ip.data := by
      rw [hdata]
      simp
    rw [he] at hm
    exact absurd hm (by decide)
  have h10 : ("10.".data <+: ip.data) ↔ a = 10 := by
    rw [hdata,
      show "10.".data = ['1', '0'] ++ '.' :: [] from rfl,
      prefix_through_sep '.' ['1', '0'] t1 []
        (t2 ++ '.' :: (t3 ++ '.' :: t4)) (by decide) hd1]
    constructor
    · rintro ⟨h, _⟩
      rw [ha]
      exact (octet_val_canon hok1).1.mpr h.symm
    · intro hv
      exact ⟨((octet_val_canon hok1).1.mp (ha ▸ hv)).symm, List.nil_prefix⟩
  have h172 : ("172.".data <+: ip.data) ↔ a = 172 := by
    rw [hdata,
      show "172.".data = ['1', '7', '2'] ++ '.' :: [] from rfl,
      prefix_through_sep '.' ['1', '7', '2'] t1 []
        (t2 ++ '.' :: (t3 ++ '.' :: t4)) (by decide) hd1]
    constructor
    · rintro ⟨h, _⟩
      rw [ha]
      exact (octet_val_canon hok1).2.1.mpr h.symm
    · intro hv
      exact ⟨((octet_val_canon hok1).2.1.mp (ha ▸ hv)).symm, List.nil_prefix⟩
  have h192 : ("192.168.".data <+: ip.data) ↔ (a = 192 ∧ b = 168) := by
    rw [hdata,
      show "192.168.".data =
        ['1', '9', '2'] ++ '.' :: (['1', '6', '8'] ++ '.' :: []) from rfl,
      prefix_through_sep '.' ['1', '9', '2'] t1 (['1', '6', '8'] ++ '.' :: [])
        (t2 ++ '.' :: (t3 ++ '.' :: t4)) (by decide) hd1,
      prefix_through_sep '.' ['1', '6', '8'] t2 [] (t3 ++ '.' :: t4)
        (by decide) hd2]
    constructor
    · rintro ⟨h1, h2, _⟩
      exact ⟨by rw [ha]; exact (octet_val_canon hok1).2.2.1.mpr h1.symm,
        by rw [hb]; exact (octet_val_canon hok2).2.2.2.mpr h2.symm⟩
    · rintro ⟨hva, hvb⟩
      exact ⟨((octet_val_canon hok1).2.2.1.mp (ha ▸ hva)).symm,
        ((octet_val_canon hok2).2.2.2.mp (hb ▸ hvb)).symm, List.nil_prefix⟩
  rw [useAuto_iff]
  constructor
  · rintro (h | h | h | h | h | h)
    · exact absurd h hne
    · exact absurd h hne2
    · exact Or.inl h
    · obtain ⟨hva, hvb⟩ := h192.mp h
      exact Or.inr (Or.inr (Or.inr ⟨hva, hvb⟩))
    · exact Or.inr (Or.inl (h10.mp h))
    · exact Or.inr (Or.inr (Or.inl (h172.mp h)))
  · rintro (h | h | h | ⟨h1, h2⟩)
    · exact Or.inr (Or.inr (Or.inl h))
    · exact Or.inr (Or.inr (Or.inr (Or.inr (Or.inl (h10.mpr h)))))
    · exact Or.inr (Or.inr (Or.inr (Or.inr (Or.inr (h172.mpr h)))))
    · exact Or.inr (Or.inr (Or.inr (Or.inl (h192.mpr ⟨h1, h2⟩))))

/-- Witness for C5 at a concrete input: `10.1.2.3` parses to octets
(10,1,2,3) and the classifier routes it to auto-detect. -/
theorem C5_autodetect_classification_witness :
    parseIPv4 "10.1.2.3" = some (10, 1, 2, 3) ∧
    useAuto "10.1.2.3" = true :=
  ⟨rfl, (C5_autodetect_classification.1 "10.1.2.3" 10 1 2 3 rfl).mpr
    (Or.inr (Or.inl rfl))⟩

/-- Witness for C10 at a concrete input: a raw body with a non-canonical
field name is returned and cached verbatim. -/
theorem C10_provider1_raw_passthrough_witness :
    (lookupIP (fun _ => .response 200 (.ok (.obj [("weird_key", .str "x")])))
      7 [] "8.8.8.8").value = .obj [("weird_key", .str "x")] :=
  (C10_provider1_raw_passthrough
    (fun _ => .response 200 (.ok (.obj [("weird_key", .str "x")])))
    7 [] "8.8.8.8" 200 (.obj [("weird_key", .str "x")]) rfl rfl rfl).2.2.1

end DeviceCollector
